import Mathlib

/-!
Shallow embedding of `src/c/secp256k1_blake160_multisig_all.c`, the CKB
threshold-multisig lock script.

Bytes are modelled as `Nat`, byte buffers as `List Nat`.  The external
collaborators declared out of scope by the design (the blake2b hash, the
molecule field extraction from `protocol_reader.h`, and the secp256k1
primitives) are oracles: the hash is an arbitrary function
`List Nat → List Nat` and the crypto/molecule routines live in the
`Crypto` / `MolOracle` structures.  Host-supplied data (syscalls) lives in
`Env`.  The function `run` is the embedding of `main`.
-/

/- Constants, from the `#define`s at the top of the source file. -/

def CKB_SUCCESS : Int := 0

def CKB_INDEX_OUT_OF_BOUND : Int := 1

def CKB_LENGTH_NOT_ENOUGH : Int := 2

def ERROR_ARGUMENTS_LEN : Int := -1

def ERROR_ENCODING : Int := -2

def ERROR_SYSCALL : Int := -3

def ERROR_SECP_RECOVER_PUBKEY : Int := -11

def ERROR_SECP_PARSE_SIGNATURE : Int := -12

def ERROR_SECP_SERIALIZE_PUBKEY : Int := -13

def ERROR_WITNESS_LEN : Int := -21

def ERROR_INVALID_PUBKEYS_CNT : Int := -22

def ERROR_INVALID_THRESHOLD : Int := -23

def ERROR_INVALID_REQUIRE_FIRST_N : Int := -24

def ERROR_MULTSIG_SCRIPT_HASH : Int := -31

def ERROR_VERIFICATION : Int := -32

def BLAKE2B_BLOCK_SIZE : Nat := 32

def BLAKE160_SIZE : Nat := 20

def PUBKEY_SIZE : Nat := 33

def RECID_INDEX : Nat := 64

def MAX_WITNESS_SIZE : Nat := 32768

def MAX_SCRIPT_SIZE : Nat := 32768

def SIGNATURE_SIZE : Nat := 65

def FLAGS_SIZE : Nat := 4

/-- The secp256k1 primitives consumed by the script, as oracles.  A parsed
signature is represented by its 64 compact bytes together with the recovery
id; a recovered public key object by an opaque byte list. -/
structure Crypto where
  parseSig : List Nat → Nat → Option (List Nat × Nat)
  recover : List Nat × Nat → List Nat → Option (List Nat)
  serializePk : List Nat → Option (List Nat)

/-- The molecule (framing format) routines consumed by the script, as
oracles.  `scriptArgs` is `mol_cut MOL_Script_args` followed by
`mol_cut_bytes` (both failures collapse to `ERROR_ENCODING` in `main`);
`witnessLockPos` is `extract_witness_lock`, returning the offset and size of
the lock field inside the witness buffer. -/
structure MolOracle where
  scriptArgs : List Nat → Option (List Nat)
  witnessLockPos : List Nat → Option (Nat × Nat)

/-- Host-supplied inputs of one verification call.  `extraWitnesses` are the
successful group-witness loads at indices 1, 2, …; `extraStop` is the return
code the host gives at the first index past them (the digest loop stops
there: `CKB_INDEX_OUT_OF_BOUND` terminates it normally, anything else is a
syscall failure).  `secpInit` is the return value of
`ckb_secp256k1_custom_verify_only_initialize`. -/
structure Env where
  scriptLoad : Except Int (List Nat)
  witness0Load : Except Int (List Nat)
  txHashLoad : Except Int (List Nat)
  extraWitnesses : List (List Nat)
  extraStop : Int
  secpInit : Int

deriving instance DecidableEq for Except

/-- Modelled from the spec: the host load accessors (`ckb_load_script`,
`ckb_load_witness`, `ckb_load_tx_hash` come from `ckb_syscalls.h`, which is
not under `src/`).  Per the boundary contract, a blob larger than the
capacity passed in `len` is rejected with a non-success code before any
parsing, so the wrapper returns an error for oversize data. -/
def hostLoad (r : Except Int (List Nat)) (cap : Nat) : Except Int (List Nat) :=
  match r with
  | .error e => .error e
  | .ok b => if cap < b.length then .error CKB_LENGTH_NOT_ENOUGH else .ok b

/-- `memset(p, 0, n)` at offset `s` of a buffer: bytes in `[s, s+n)` (clipped
to the buffer) become `0`, all others are kept. -/
def zeroRange : List Nat → Nat → Nat → List Nat
  | [], _, _ => []
  | b :: rest, 0, 0 => b :: rest
  | _ :: rest, 0, n + 1 => 0 :: zeroRange rest 0 n
  | b :: rest, s + 1, n => b :: zeroRange rest s n

/-- Contents of the first-witness buffer after the Digest Builder's
`memset` (source lines 163–166): the zeroing is performed through
`lock_bytes_res.pos.ptr`, which aliases the `witness` buffer at offset
`off`, so the signature area `[off+msLen, off+msLen+sigLen)` of the loaded
witness itself is overwritten with zero in place, and this buffer is what
`blake2b_update` then hashes. -/
def witnessAfterDigest (w : List Nat) (off msLen sigLen : Nat) : List Nat :=
  zeroRange w (off + msLen) sigLen

/-- The digest loop over further group witnesses (source lines 168–181):
each successful load is capacity-checked by the host accessor, the loop ends
normally on `CKB_INDEX_OUT_OF_BOUND`, and any other non-success code aborts
with `ERROR_SYSCALL`. -/
def loadExtras : List (List Nat) → Int → Except Int (List (List Nat))
  | [], stop =>
    if stop = CKB_INDEX_OUT_OF_BOUND then .ok [] else .error ERROR_SYSCALL
  | wt :: rest, stop =>
    if MAX_WITNESS_SIZE < wt.length then .error ERROR_SYSCALL
    else
      match loadExtras rest stop with
      | .error e => .error e
      | .ok l => .ok (wt :: l)

/-- The `i`-th policy public key: 33 bytes at offset `4 + 33*i` of the lock
bytes. -/
def pkAt (lf : List Nat) (j : Nat) : List Nat :=
  (lf.drop (FLAGS_SIZE + PUBKEY_SIZE * j)).take PUBKEY_SIZE

/-- The 64 compact signature bytes of the `i`-th signature, at offset
`msLen + i*65` of the lock bytes. -/
def sigBytesAt (lf : List Nat) (msLen i : Nat) : List Nat :=
  (lf.drop (msLen + i * SIGNATURE_SIZE)).take RECID_INDEX

/-- The recovery id of the `i`-th signature: the byte at offset
`msLen + i*65 + 64` of the lock bytes. -/
def recidAt (lf : List Nat) (msLen i : Nat) : Nat :=
  lf.getD (msLen + i * SIGNATURE_SIZE + RECID_INDEX) 0

/-- Parse, recover and serialize the `i`-th signature into a compressed
candidate public key (source lines 196–215), with the source's three
distinct error codes. -/
def candidateAt (Cr : Crypto) (msg lf : List Nat) (msLen i : Nat) :
    Except Int (List Nat) :=
  match Cr.parseSig (sigBytesAt lf msLen i) (recidAt lf msLen i) with
  | none => .error ERROR_SECP_PARSE_SIGNATURE
  | some s =>
    match Cr.recover s msg with
    | none => .error ERROR_SECP_RECOVER_PUBKEY
    | some pk =>
      match Cr.serializePk pk with
      | none => .error ERROR_SECP_SERIALIZE_PUBKEY
      | some c => .ok c

/-- The inner scan of the Threshold Matcher (source lines 218–230): starting
at index `j` with `n` indices left, skip used slots and slots whose public
key differs from the candidate, and return the first remaining index.  The
match state is the conceptual per-public-key map (a total function
initialized to `false`); the allocation of the concrete `used_signatures`
array is treated separately, see `usedSignaturesAlloc` and `scanVisited`. -/
def findSlot (lf cand : List Nat) (used : Nat → Bool) : Nat → Nat → Option Nat
  | _, 0 => none
  | j, n + 1 =>
    if used j then findSlot lf cand used (j + 1) n
    else if pkAt lf j = cand then some j
    else findSlot lf cand used (j + 1) n

/-- The outer loop of the Threshold Matcher (source lines 195–235):
signature index `i`, `n` signatures left; each candidate must claim the
first unused matching public-key slot, else the loop aborts with
`ERROR_VERIFICATION`. -/
def matchLoop (Cr : Crypto) (msg lf : List Nat) (msLen pc : Nat) :
    (Nat → Bool) → Nat → Nat → Except Int (Nat → Bool)
  | used, _, 0 => .ok used
  | used, i, n + 1 =>
    match candidateAt Cr msg lf msLen i with
    | .error e => .error e
    | .ok cand =>
      match findSlot lf cand used 0 pc with
      | none => .error ERROR_VERIFICATION
      | some j =>
        matchLoop Cr msg lf msLen pc (fun k => if k = j then true else used k)
          (i + 1) n

/-- The final first-N check (source lines 237–241): true iff
`used 0, …, used (rfn-1)` are all set. -/
def firstNCheck (used : Nat → Bool) : Nat → Bool
  | 0 => true
  | n + 1 => firstNCheck used n && used n

/-- The whole Threshold Matcher stage: run the signature loop from a fresh
match state, then apply the first-N check. -/
def verifyStage (Cr : Crypto) (msg lf : List Nat) (msLen pc th rfn : Nat) : Int :=
  match matchLoop Cr msg lf msLen pc (fun _ => false) 0 th with
  | .error e => e
  | .ok used => if firstNCheck used rfn then 0 else ERROR_VERIFICATION

/-- Stages 4.3–4.4 of the pipeline (source lines 150–243): load the tx hash,
build the digest over the tx hash, the in-place-zeroed first witness and all
further group witnesses, initialize the secp context, and run the Threshold
Matcher.  `w` is the first witness as the host returned it; `lf` is the lock
bytes copy taken before the zeroing. -/
def digestAndVerify (H : List Nat → List Nat) (Cr : Crypto) (env : Env)
    (w : List Nat) (off msLen sigLen : Nat) (lf : List Nat)
    (pc th rfn : Nat) : Int :=
  match hostLoad env.txHashLoad BLAKE2B_BLOCK_SIZE with
  | .error _ => ERROR_SYSCALL
  | .ok txh =>
    match loadExtras env.extraWitnesses env.extraStop with
    | .error e => e
    | .ok exs =>
      let msg := H (txh ++ witnessAfterDigest w off msLen sigLen ++ exs.flatten)
      if env.secpInit ≠ 0 then env.secpInit
      else verifyStage Cr msg lf msLen pc th rfn

/-- The embedding of `main` (source lines 70–243). -/
def run (H : List Nat → List Nat) (Cr : Crypto) (M : MolOracle) (env : Env) : Int :=
  match hostLoad env.scriptLoad MAX_SCRIPT_SIZE with
  | .error _ => ERROR_SYSCALL
  | .ok script =>
    match M.scriptArgs script with
    | none => ERROR_ENCODING
    | some args =>
      if args.length ≠ BLAKE160_SIZE then ERROR_ARGUMENTS_LEN
      else
        match hostLoad env.witness0Load MAX_WITNESS_SIZE with
        | .error _ => ERROR_SYSCALL
        | .ok witness =>
          match M.witnessLockPos witness with
          | none => ERROR_ENCODING
          | some (off, sz) =>
            if sz < FLAGS_SIZE then ERROR_WITNESS_LEN
            else
              let lf := (witness.drop off).take sz
              let pc := lf.getD 3 0
              let th0 := lf.getD 2 0
              let rfn := lf.getD 1 0
              if pc = 0 then ERROR_INVALID_PUBKEYS_CNT
              else if pc < th0 then ERROR_INVALID_THRESHOLD
              else
                let th := if th0 = 0 then pc else th0
                if th < rfn then ERROR_INVALID_REQUIRE_FIRST_N
                else
                  let msLen := FLAGS_SIZE + PUBKEY_SIZE * pc
                  let sigLen := SIGNATURE_SIZE * th
                  if sz ≠ msLen + sigLen then ERROR_WITNESS_LEN
                  else if args ≠ (H (lf.take msLen)).take BLAKE160_SIZE then
                    ERROR_MULTSIG_SCRIPT_HASH
                  else digestAndVerify H Cr env witness off msLen sigLen lf pc th rfn

/-- Size in bytes of the `used_signatures` array as the source allocates it
(line 185): `threshold` entries. -/
def usedSignaturesAlloc (th : Nat) : Nat := th

/-- The indices at which the inner scan (source lines 219–230) reads
`used_signatures` before terminating: every visited index `j` incurs the
read `used_signatures[j]` at line 220. -/
def scanVisited (lf cand : List Nat) (used : Nat → Bool) : Nat → Nat → List Nat
  | _, 0 => []
  | j, n + 1 =>
    j :: (if used j then scanVisited lf cand used (j + 1) n
          else if pkAt lf j = cand then []
          else scanVisited lf cand used (j + 1) n)

/-- Spec-side formulation of the policy public-key list: the `pc` keys in
order. -/
def pksList (lf : List Nat) (pc : Nat) : List (List Nat) :=
  (List.range pc).map (pkAt lf)

/-- Spec-side formulation of the Threshold Matcher's selection rule, from
the spec's words: scan indices `0..pubkey_count` ascending and select the
first `j` with `MatchState[j]` false and `pubkeys[j] = candidate`. -/
def specSelect (pks : List (List Nat)) (used : List Bool) (cand : List Nat) :
    Option Nat :=
  (List.range pks.length).find?
    (fun j => !(used.getD j false) && decide (pks.getD j [] = cand))

/-- Spec-side formulation of the matching pass: process the candidate keys
in list order, marking the selected slot after each, failing when no slot
exists. -/
def specRun (pks : List (List Nat)) : List (List Nat) → List Bool → Option (List Bool)
  | [], used => some used
  | c :: rest, used =>
    match specSelect pks used c with
    | none => none
    | some j => specRun pks rest (used.set j true)

/-- Spec-side formulation of the whole matching stage: run the pass from an
all-false state of size `pubkey_count`, then accept iff
`MatchState[0..require_first_n)` are all true. -/
def specAccept (pks : List (List Nat)) (cands : List (List Nat)) (pc rfn : Nat) : Int :=
  match specRun pks cands (List.replicate pc false) with
  | none => ERROR_VERIFICATION
  | some used =>
    if (List.range rfn).all (fun i => used.getD i false) then 0
    else ERROR_VERIFICATION

/-! ## Concrete instances used to exercise the embedding -/

/-- A concrete hash oracle: constant 32-byte output. -/
def H0 : List Nat → List Nat := fun _ => List.replicate 32 0

/-- A concrete crypto oracle: parsing keeps the bytes, recovery returns the
signature's compact bytes, serialization truncates to 33 bytes.  (Any
`Crypto` is admissible; this one makes candidates concrete.) -/
def Cr0 : Crypto where
  parseSig := fun b r => some (b, r)
  recover := fun s _ => some s.1
  serializePk := fun p => some (p.take 33)

/-- A concrete molecule oracle: the script args are the 20-byte fingerprint
matching `H0`, and the lock field is the whole witness. -/
def M0 : MolOracle where
  scriptArgs := fun _ => some (List.replicate 20 0)
  witnessLockPos := fun wl => some (0, wl.length)

/-- Lock bytes of an accepting 1-of-1 call: flags `[0,1,1,1]`, one pubkey
`replicate 33 5`, one signature whose first 33 bytes equal that pubkey. -/
def lockA : List Nat :=
  [0, 1, 1, 1] ++ List.replicate 33 5 ++ (List.replicate 33 5 ++ List.replicate 32 9)

/-- Host inputs of the accepting 1-of-1 call. -/
def envA : Env where
  scriptLoad := .ok []
  witness0Load := .ok lockA
  txHashLoad := .ok (List.replicate 32 7)
  extraWitnesses := []
  extraStop := CKB_INDEX_OUT_OF_BOUND
  secpInit := 0

/-- Host inputs whose lock bytes declare `pubkey_count = 0`. -/
def envZ : Env where
  scriptLoad := .ok []
  witness0Load := .ok [0, 0, 0, 0]
  txHashLoad := .ok (List.replicate 32 7)
  extraWitnesses := []
  extraStop := CKB_INDEX_OUT_OF_BOUND
  secpInit := 0

/-- Lock bytes of a validated 1-of-2 call (flags `[0,0,1,2]`, two pubkeys,
one signature matching neither pubkey). -/
def lockB : List Nat :=
  [0, 0, 1, 2] ++ List.replicate 33 5 ++ List.replicate 33 6 ++
    (List.replicate 33 8 ++ List.replicate 32 9)

/-- Host inputs of the validated 1-of-2 call. -/
def envB : Env where
  scriptLoad := .ok []
  witness0Load := .ok lockB
  txHashLoad := .ok (List.replicate 32 7)
  extraWitnesses := []
  extraStop := CKB_INDEX_OUT_OF_BOUND
  secpInit := 0

/-- Lock bytes of a 2-of-2 call whose two signatures both recover (under
`Cr0`) to the first pubkey: flags `[0,0,2,2]`, pubkeys `replicate 33 5` and
`replicate 33 6`, and two identical signatures whose first 33 bytes equal
the first pubkey. -/
def lockD : List Nat :=
  [0, 0, 2, 2] ++ List.replicate 33 5 ++ List.replicate 33 6 ++
    (List.replicate 33 5 ++ List.replicate 32 9) ++
    (List.replicate 33 5 ++ List.replicate 32 9)

/-- Host inputs of the duplicated-signer 2-of-2 call. -/
def envD : Env where
  scriptLoad := .ok []
  witness0Load := .ok lockD
  txHashLoad := .ok (List.replicate 32 7)
  extraWitnesses := []
  extraStop := CKB_INDEX_OUT_OF_BOUND
  secpInit := 0

/-! ## Helper lemmas -/

theorem hostLoad_ok (b : List Nat) (cap : Nat) (h : b.length ≤ cap) :
    hostLoad (.ok b) cap = .ok b := by
  simp [hostLoad, Nat.not_lt.mpr h]

theorem loadExtras_ok : ∀ ex : List (List Nat),
    (∀ e ∈ ex, e.length ≤ MAX_WITNESS_SIZE) →
    loadExtras ex CKB_INDEX_OUT_OF_BOUND = .ok ex
  | [], _ => by simp [loadExtras]
  | wt :: rest, h => by
    have h1 : ¬ (MAX_WITNESS_SIZE < wt.length) :=
      Nat.not_lt.mpr (h wt (by simp))
    have ih := loadExtras_ok rest (fun e he => h e (by simp [he]))
    simp [loadExtras, h1, ih]

theorem loadExtras_stop : ∀ (ex : List (List Nat)) (stop : Int),
    stop ≠ CKB_INDEX_OUT_OF_BOUND →
    loadExtras ex stop = .error ERROR_SYSCALL
  | [], _, h => by simp [loadExtras, h]
  | wt :: rest, stop, h => by
    by_cases hw : MAX_WITNESS_SIZE < wt.length
    · simp [loadExtras, hw]
    · simp [loadExtras, hw, loadExtras_stop rest stop h]

theorem digestAndVerify_ok (H : List Nat → List Nat) (Cr : Crypto) (env : Env)
    (w : List Nat) (off msLen sigLen : Nat) (lf : List Nat) (pc th rfn : Nat)
    (txh : List Nat)
    (h14 : env.txHashLoad = .ok txh) (h15 : txh.length ≤ BLAKE2B_BLOCK_SIZE)
    (h16 : ∀ e ∈ env.extraWitnesses, e.length ≤ MAX_WITNESS_SIZE)
    (h17 : env.extraStop = CKB_INDEX_OUT_OF_BOUND)
    (h18 : env.secpInit = 0) :
    digestAndVerify H Cr env w off msLen sigLen lf pc th rfn =
      verifyStage Cr
        (H (txh ++ witnessAfterDigest w off msLen sigLen ++
            env.extraWitnesses.flatten))
        lf msLen pc th rfn := by
  rw [digestAndVerify, h14, hostLoad_ok _ _ h15, h17,
    loadExtras_ok _ h16]
  simp [h18]

theorem digestAndVerify_stop (H : List Nat → List Nat) (Cr : Crypto) (env : Env)
    (w : List Nat) (off msLen sigLen : Nat) (lf : List Nat) (pc th rfn : Nat)
    (txh : List Nat)
    (h14 : env.txHashLoad = .ok txh) (h15 : txh.length ≤ BLAKE2B_BLOCK_SIZE)
    (h17 : env.extraStop ≠ CKB_INDEX_OUT_OF_BOUND) :
    digestAndVerify H Cr env w off msLen sigLen lf pc th rfn = ERROR_SYSCALL := by
  rw [digestAndVerify, h14, hostLoad_ok _ _ h15,
    loadExtras_stop _ _ h17]

theorem run_eq_parse (H : List Nat → List Nat) (Cr : Crypto) (M : MolOracle)
    (env : Env) (s args w : List Nat) (off sz : Nat)
    (h1 : env.scriptLoad = .ok s) (h2 : s.length ≤ MAX_SCRIPT_SIZE)
    (h3 : M.scriptArgs s = some args) (h4 : args.length = BLAKE160_SIZE)
    (h5 : env.witness0Load = .ok w) (h6 : w.length ≤ MAX_WITNESS_SIZE)
    (h7 : M.witnessLockPos w = some (off, sz)) (h8 : FLAGS_SIZE ≤ sz)
    (lf : List Nat) (hlf : lf = (w.drop off).take sz) :
    run H Cr M env =
      (if lf.getD 3 0 = 0 then ERROR_INVALID_PUBKEYS_CNT
       else if lf.getD 3 0 < lf.getD 2 0 then ERROR_INVALID_THRESHOLD
       else
         let th := if lf.getD 2 0 = 0 then lf.getD 3 0 else lf.getD 2 0
         if th < lf.getD 1 0 then ERROR_INVALID_REQUIRE_FIRST_N
         else
           let msLen := FLAGS_SIZE + PUBKEY_SIZE * lf.getD 3 0
           if sz ≠ msLen + SIGNATURE_SIZE * th then ERROR_WITNESS_LEN
           else if args ≠ (H (lf.take msLen)).take BLAKE160_SIZE then
             ERROR_MULTSIG_SCRIPT_HASH
           else
             digestAndVerify H Cr env w off msLen (SIGNATURE_SIZE * th) lf
               (lf.getD 3 0) th (lf.getD 1 0)) := by
  subst hlf
  simp only [run, h1, hostLoad_ok _ _ h2, h3, h5, hostLoad_ok _ _ h6, h7]
  simp [h4, Nat.not_lt.mpr h8]

theorem run_reaches (H : List Nat → List Nat) (Cr : Crypto) (M : MolOracle)
    (env : Env) (s args w : List Nat) (off sz : Nat)
    (h1 : env.scriptLoad = .ok s) (h2 : s.length ≤ MAX_SCRIPT_SIZE)
    (h3 : M.scriptArgs s = some args) (h4 : args.length = BLAKE160_SIZE)
    (h5 : env.witness0Load = .ok w) (h6 : w.length ≤ MAX_WITNESS_SIZE)
    (h7 : M.witnessLockPos w = some (off, sz)) (h8 : FLAGS_SIZE ≤ sz)
    (lf : List Nat) (hlf : lf = (w.drop off).take sz)
    (pc th0 rfn th msLen sigLen : Nat)
    (hpc : pc = lf.getD 3 0) (hth0 : th0 = lf.getD 2 0)
    (hrfn : rfn = lf.getD 1 0) (hth : th = if th0 = 0 then pc else th0)
    (hms : msLen = FLAGS_SIZE + PUBKEY_SIZE * pc)
    (hsig : sigLen = SIGNATURE_SIZE * th)
    (h9 : pc ≠ 0) (h10 : th0 ≤ pc) (h11 : rfn ≤ th)
    (h12 : sz = msLen + sigLen)
    (h13 : args = (H (lf.take msLen)).take BLAKE160_SIZE) :
    run H Cr M env = digestAndVerify H Cr env w off msLen sigLen lf pc th rfn := by
  rw [run_eq_parse H Cr M env s args w off sz h1 h2 h3 h4 h5 h6 h7 h8 lf hlf]
  subst hpc hth0 hrfn hth hms hsig
  simp only [if_neg h9, if_neg (Nat.not_lt.mpr h10), if_neg (Nat.not_lt.mpr h11),
    if_neg (not_not_intro h12), if_neg (not_not_intro h13)]

/-! ## Claims -/

/-- C2: for every lock-bytes input of at least 4 bytes, the Policy Parser
fails with `ERROR_INVALID_PUBKEYS_CNT` when `pubkey_count = 0`; otherwise
with `ERROR_INVALID_THRESHOLD` when `threshold > pubkey_count` (checked
before normalization); otherwise `threshold = 0` is normalized to
`pubkey_count`; then it fails with `ERROR_INVALID_REQUIRE_FIRST_N` when
`require_first_n > threshold` (post-normalization); then with
`ERROR_WITNESS_LEN` unless the lock length is exactly
`4 + 33*pubkey_count + 65*threshold` — in precisely this order. -/
theorem c2_policy_parser_check_order (H : List Nat → List Nat) (Cr : Crypto)
    (M : MolOracle) (env : Env) (s args w : List Nat) (off sz : Nat)
    (h1 : env.scriptLoad = .ok s) (h2 : s.length ≤ MAX_SCRIPT_SIZE)
    (h3 : M.scriptArgs s = some args) (h4 : args.length = BLAKE160_SIZE)
    (h5 : env.witness0Load = .ok w) (h6 : w.length ≤ MAX_WITNESS_SIZE)
    (h7 : M.witnessLockPos w = some (off, sz)) (h8 : FLAGS_SIZE ≤ sz)
    (lf : List Nat) (hlf : lf = (w.drop off).take sz) :
    (lf.getD 3 0 = 0 → run H Cr M env = ERROR_INVALID_PUBKEYS_CNT) ∧
    (lf.getD 3 0 ≠ 0 → lf.getD 3 0 < lf.getD 2 0 →
      run H Cr M env = ERROR_INVALID_THRESHOLD) ∧
    (lf.getD 3 0 ≠ 0 → lf.getD 2 0 ≤ lf.getD 3 0 →
      (if lf.getD 2 0 = 0 then lf.getD 3 0 else lf.getD 2 0) < lf.getD 1 0 →
      run H Cr M env = ERROR_INVALID_REQUIRE_FIRST_N) ∧
    (lf.getD 3 0 ≠ 0 → lf.getD 2 0 ≤ lf.getD 3 0 →
      lf.getD 1 0 ≤ (if lf.getD 2 0 = 0 then lf.getD 3 0 else lf.getD 2 0) →
      sz ≠ FLAGS_SIZE + PUBKEY_SIZE * lf.getD 3 0 +
        SIGNATURE_SIZE * (if lf.getD 2 0 = 0 then lf.getD 3 0 else lf.getD 2 0) →
      run H Cr M env = ERROR_WITNESS_LEN) := by
  have hrun := run_eq_parse H Cr M env s args w off sz h1 h2 h3 h4 h5 h6 h7 h8 lf hlf
  refine ⟨?_, ?_, ?_, ?_⟩
  · intro hp
    rw [hrun]
    simp only [if_pos hp]
  · intro hp ht
    rw [hrun]
    simp only [if_neg hp, if_pos ht]
  · intro hp ht hr
    rw [hrun]
    simp only [if_neg hp, if_neg (Nat.not_lt.mpr ht), if_pos hr]
  · intro hp ht hr hl
    rw [hrun]
    simp only [if_neg hp, if_neg (Nat.not_lt.mpr ht), if_neg (Nat.not_lt.mpr hr),
      if_pos hl]

/-- Witness for C2 at a concrete input: lock bytes `[0,0,0,0]` declare
`pubkey_count = 0` and the call returns `ERROR_INVALID_PUBKEYS_CNT`. -/
theorem c2_policy_parser_check_order_witness :
    run H0 Cr0 M0 envZ = ERROR_INVALID_PUBKEYS_CNT :=
  (c2_policy_parser_check_order H0 Cr0 M0 envZ [] (List.replicate 20 0)
    [0, 0, 0, 0] 0 4 rfl (by decide) rfl (by decide) rfl (by decide) rfl
    (by decide) [0, 0, 0, 0] rfl).1 rfl

theorem candidateAt_congr (Cr1 Cr2 : Crypto) (msg lf : List Nat) (msLen i : Nat)
    (hp : ∀ b r, Cr1.parseSig b r = Cr2.parseSig b r)
    (hr : ∀ s2, Cr1.recover s2 msg = Cr2.recover s2 msg)
    (hs : ∀ p, Cr1.serializePk p = Cr2.serializePk p) :
    candidateAt Cr1 msg lf msLen i = candidateAt Cr2 msg lf msLen i := by
  simp only [candidateAt, hp, hr, hs]

theorem matchLoop_congr (Cr1 Cr2 : Crypto) (msg lf : List Nat) (msLen pc : Nat)
    (hp : ∀ b r, Cr1.parseSig b r = Cr2.parseSig b r)
    (hr : ∀ s2, Cr1.recover s2 msg = Cr2.recover s2 msg)
    (hs : ∀ p, Cr1.serializePk p = Cr2.serializePk p) :
    ∀ (n i : Nat) (used : Nat → Bool),
      matchLoop Cr1 msg lf msLen pc used i n = matchLoop Cr2 msg lf msLen pc used i n := by
  intro n
  induction n with
  | zero => intro i used; rfl
  | succ n ih =>
    intro i used
    have hcand := candidateAt_congr Cr1 Cr2 msg lf msLen i hp hr hs
    cases hc : candidateAt Cr2 msg lf msLen i with
    | error e =>
      rw [hc] at hcand
      simp only [matchLoop, hcand, hc]
    | ok cand =>
      rw [hc] at hcand
      simp only [matchLoop, hcand, hc]
      cases hf : findSlot lf cand used 0 pc with
      | none => rfl
      | some j => exact ih (i + 1) _

theorem verifyStage_congr (Cr1 Cr2 : Crypto) (msg lf : List Nat)
    (msLen pc th rfn : Nat)
    (hp : ∀ b r, Cr1.parseSig b r = Cr2.parseSig b r)
    (hr : ∀ s2, Cr1.recover s2 msg = Cr2.recover s2 msg)
    (hs : ∀ p, Cr1.serializePk p = Cr2.serializePk p) :
    verifyStage Cr1 msg lf msLen pc th rfn = verifyStage Cr2 msg lf msLen pc th rfn := by
  unfold verifyStage
  rw [matchLoop_congr Cr1 Cr2 msg lf msLen pc hp hr hs th 0 (fun _ => false)]

/-- C3: for every validated call the digest is the streaming hash of the
32-byte tx hash, then the first group witness with its trailing
`65*threshold` signature bytes zeroed, then every further group witness
until the host reports index-out-of-bound; any other host failure in that
loop aborts with `ERROR_SYSCALL`; and this single digest is the message of
every signature-recovery operation (the matcher's result depends on the
`recover` oracle only through its values at that one digest). -/
theorem c3_digest_builder (H : List Nat → List Nat) (Cr : Crypto)
    (M : MolOracle) (env : Env) (s args w : List Nat) (off sz : Nat)
    (h1 : env.scriptLoad = .ok s) (h2 : s.length ≤ MAX_SCRIPT_SIZE)
    (h3 : M.scriptArgs s = some args) (h4 : args.length = BLAKE160_SIZE)
    (h5 : env.witness0Load = .ok w) (h6 : w.length ≤ MAX_WITNESS_SIZE)
    (h7 : M.witnessLockPos w = some (off, sz)) (h8 : FLAGS_SIZE ≤ sz)
    (lf : List Nat) (hlf : lf = (w.drop off).take sz)
    (pc th0 rfn th msLen sigLen : Nat)
    (hpc : pc = lf.getD 3 0) (hth0 : th0 = lf.getD 2 0)
    (hrfn : rfn = lf.getD 1 0) (hth : th = if th0 = 0 then pc else th0)
    (hms : msLen = FLAGS_SIZE + PUBKEY_SIZE * pc)
    (hsig : sigLen = SIGNATURE_SIZE * th)
    (h9 : pc ≠ 0) (h10 : th0 ≤ pc) (h11 : rfn ≤ th)
    (h12 : sz = msLen + sigLen)
    (h13 : args = (H (lf.take msLen)).take BLAKE160_SIZE)
    (txh : List Nat) (h14 : env.txHashLoad = .ok txh)
    (h15 : txh.length ≤ BLAKE2B_BLOCK_SIZE) :
    ((∀ e ∈ env.extraWitnesses, e.length ≤ MAX_WITNESS_SIZE) →
      env.extraStop = CKB_INDEX_OUT_OF_BOUND → env.secpInit = 0 →
      run H Cr M env =
        verifyStage Cr
          (H (txh ++ witnessAfterDigest w off msLen sigLen ++
              env.extraWitnesses.flatten)) lf msLen pc th rfn) ∧
    (env.extraStop ≠ CKB_INDEX_OUT_OF_BOUND → run H Cr M env = ERROR_SYSCALL) ∧
    (∀ Cr2 : Crypto,
      (∀ b r, Cr.parseSig b r = Cr2.parseSig b r) →
      (∀ s2, Cr.recover s2 (H (txh ++ witnessAfterDigest w off msLen sigLen ++
          env.extraWitnesses.flatten)) =
        Cr2.recover s2 (H (txh ++ witnessAfterDigest w off msLen sigLen ++
          env.extraWitnesses.flatten))) →
      (∀ p, Cr.serializePk p = Cr2.serializePk p) →
      verifyStage Cr
        (H (txh ++ witnessAfterDigest w off msLen sigLen ++
            env.extraWitnesses.flatten)) lf msLen pc th rfn =
      verifyStage Cr2
        (H (txh ++ witnessAfterDigest w off msLen sigLen ++
            env.extraWitnesses.flatten)) lf msLen pc th rfn) := by
  have hfac := run_reaches H Cr M env s args w off sz h1 h2 h3 h4 h5 h6 h7 h8
    lf hlf pc th0 rfn th msLen sigLen hpc hth0 hrfn hth hms hsig h9 h10 h11 h12 h13
  refine ⟨?_, ?_, ?_⟩
  · intro h16 h17 h18
    rw [hfac, digestAndVerify_ok H Cr env w off msLen sigLen lf pc th rfn txh
      h14 h15 h16 h17 h18]
  · intro h17
    rw [hfac, digestAndVerify_stop H Cr env w off msLen sigLen lf pc th rfn txh
      h14 h15 h17]
  · intro Cr2 hp hr hs
    exact verifyStage_congr Cr Cr2 _ lf msLen pc th rfn hp hr hs

/-- Witness for C3 at the accepting 1-of-1 input: the call equals the
matcher run on the digest of tx hash, zeroed first witness and no further
witnesses. -/
theorem c3_digest_builder_witness :
    run H0 Cr0 M0 envA =
      verifyStage Cr0
        (H0 (List.replicate 32 7 ++ witnessAfterDigest lockA 0 37 65 ++
            envA.extraWitnesses.flatten)) lockA 37 1 1 1 :=
  (c3_digest_builder H0 Cr0 M0 envA [] (List.replicate 20 0) lockA 0 102
    rfl (by decide) rfl (by decide) rfl (by decide) (by decide) (by decide)
    lockA (by decide) 1 1 1 1 37 65 (by decide) (by decide) (by decide)
    (by decide) (by decide) (by decide) (by decide) (by decide) (by decide)
    (by decide) (by decide) (List.replicate 32 7) rfl (by decide)).1
    (by simp [envA]) rfl rfl

/-- C4: for every call that passed policy validation, the Fingerprint
Checker hashes exactly the policy-prefix bytes (the 4-byte header plus the
`33*pubkey_count` pubkey bytes, excluding signatures), compares the first
20 bytes of the 32-byte hash against the 20-byte script argument, fails
with `ERROR_MULTSIG_SCRIPT_HASH` on any difference, and proceeds to the
digest stage otherwise. -/
theorem c4_fingerprint_check (H : List Nat → List Nat) (Cr : Crypto)
    (M : MolOracle) (env : Env) (s args w : List Nat) (off sz : Nat)
    (h1 : env.scriptLoad = .ok s) (h2 : s.length ≤ MAX_SCRIPT_SIZE)
    (h3 : M.scriptArgs s = some args) (h4 : args.length = BLAKE160_SIZE)
    (h5 : env.witness0Load = .ok w) (h6 : w.length ≤ MAX_WITNESS_SIZE)
    (h7 : M.witnessLockPos w = some (off, sz)) (h8 : FLAGS_SIZE ≤ sz)
    (lf : List Nat) (hlf : lf = (w.drop off).take sz)
    (pc th0 rfn th msLen sigLen : Nat)
    (hpc : pc = lf.getD 3 0) (hth0 : th0 = lf.getD 2 0)
    (hrfn : rfn = lf.getD 1 0) (hth : th = if th0 = 0 then pc else th0)
    (hms : msLen = FLAGS_SIZE + PUBKEY_SIZE * pc)
    (hsig : sigLen = SIGNATURE_SIZE * th)
    (h9 : pc ≠ 0) (h10 : th0 ≤ pc) (h11 : rfn ≤ th)
    (h12 : sz = msLen + sigLen) :
    (args ≠ (H (lf.take msLen)).take BLAKE160_SIZE →
      run H Cr M env = ERROR_MULTSIG_SCRIPT_HASH) ∧
    (args = (H (lf.take msLen)).take BLAKE160_SIZE →
      run H Cr M env = digestAndVerify H Cr env w off msLen sigLen lf pc th rfn) := by
  have hrun := run_eq_parse H Cr M env s args w off sz h1 h2 h3 h4 h5 h6 h7 h8 lf hlf
  subst hpc hth0 hrfn hth hms hsig
  constructor
  · intro hne
    rw [hrun]
    simp only [if_neg h9, if_neg (Nat.not_lt.mpr h10), if_neg (Nat.not_lt.mpr h11),
      if_neg (not_not_intro h12), if_pos hne]
  · intro heq
    rw [hrun]
    simp only [if_neg h9, if_neg (Nat.not_lt.mpr h10), if_neg (Nat.not_lt.mpr h11),
      if_neg (not_not_intro h12), if_neg (not_not_intro heq)]

/-- Witness for C4 at the accepting 1-of-1 input: the argument equals the
first 20 bytes of the hash of the 37-byte policy-prefix, and the call
proceeds to the digest stage. -/
theorem c4_fingerprint_check_witness :
    run H0 Cr0 M0 envA = digestAndVerify H0 Cr0 envA lockA 0 37 65 lockA 1 1 1 :=
  (c4_fingerprint_check H0 Cr0 M0 envA [] (List.replicate 20 0) lockA 0 102
    rfl (by decide) rfl (by decide) rfl (by decide) (by decide) (by decide)
    lockA (by decide) 1 1 1 1 37 65 (by decide) (by decide) (by decide)
    (by decide) (by decide) (by decide) (by decide) (by decide) (by decide)
    (by decide)).2 (by decide)

theorem find?_congr_mem {α : Type} (l : List α) (p q : α → Bool)
    (h : ∀ x ∈ l, p x = q x) : l.find? p = l.find? q := by
  induction l with
  | nil => rfl
  | cons a l ih =>
    have ha := h a (by simp)
    by_cases hp : p a = true
    · rw [List.find?_cons_of_pos l hp, List.find?_cons_of_pos l (ha.symm.trans hp)]
    · rw [List.find?_cons_of_neg l hp,
        List.find?_cons_of_neg l (fun hq => hp (ha.trans hq)),
        ih (fun x hx => h x (by simp [hx]))]

theorem findSlot_eq_find? (lf cand : List Nat) (used : Nat → Bool) :
    ∀ (n j : Nat), findSlot lf cand used j n =
      (List.range' j n).find? (fun k => !(used k) && decide (pkAt lf k = cand))
  | 0, _ => rfl
  | n + 1, j => by
    show findSlot lf cand used j (n + 1) =
      (j :: List.range' (j + 1) n).find?
        (fun k => !(used k) && decide (pkAt lf k = cand))
    by_cases hu : used j
    · rw [List.find?_cons_of_neg _ (by simp [hu])]
      simp only [findSlot, if_pos hu]
      exact findSlot_eq_find? lf cand used n (j + 1)
    · by_cases hp : pkAt lf j = cand
      · rw [List.find?_cons_of_pos _ (by simp [hu, hp])]
        simp only [findSlot, if_neg hu, if_pos hp]
      · rw [List.find?_cons_of_neg _ (by simp [hu, hp])]
        simp only [findSlot, if_neg hu, if_neg hp]
        exact findSlot_eq_find? lf cand used n (j + 1)

theorem pksList_getD (lf : List Nat) (pc k : Nat) (hk : k < pc) :
    (pksList lf pc).getD k [] = pkAt lf k := by
  unfold pksList
  rw [List.getD_eq_getElem?_getD, List.getElem?_map, List.getElem?_range hk]
  rfl

theorem findSlot_eq_specSelect (lf cand : List Nat) (pc : Nat)
    (usedF : Nat → Bool) (usedL : List Bool)
    (hrel : ∀ k, k < pc → usedF k = usedL.getD k false) :
    findSlot lf cand usedF 0 pc = specSelect (pksList lf pc) usedL cand := by
  rw [findSlot_eq_find? lf cand usedF pc 0]
  unfold specSelect
  have hlen : (pksList lf pc).length = pc := by simp [pksList]
  rw [hlen, List.range_eq_range']
  apply find?_congr_mem
  intro k hk
  have hk' : k < pc := by
    have h := List.mem_range'_1.mp hk
    omega
  rw [hrel k hk', pksList_getD lf pc k hk']

theorem matchLoop_eq_specRun (Cr : Crypto) (msg lf : List Nat) (msLen pc : Nat) :
    ∀ (cs : List (List Nat)) (i : Nat) (usedF : Nat → Bool) (usedL : List Bool),
      usedL.length = pc →
      (∀ k, k < pc → usedF k = usedL.getD k false) →
      (∀ k, k < cs.length →
        candidateAt Cr msg lf msLen (i + k) = .ok (cs.getD k [])) →
      (match specRun (pksList lf pc) cs usedL with
       | none => matchLoop Cr msg lf msLen pc usedF i cs.length = .error ERROR_VERIFICATION
       | some u =>
         ∃ f, matchLoop Cr msg lf msLen pc usedF i cs.length = .ok f ∧
           u.length = pc ∧ ∀ k, k < pc → f k = u.getD k false)
  | [], i, usedF, usedL, hlen, hrel, _ => by
    simp only [specRun, List.length_nil, matchLoop]
    exact ⟨usedF, rfl, hlen, hrel⟩
  | c :: rest, i, usedF, usedL, hlen, hrel, hcands => by
    have hc0 : candidateAt Cr msg lf msLen i = .ok c := by
      have h := hcands 0 (by simp)
      simpa using h
    have hsel := findSlot_eq_specSelect lf c pc usedF usedL hrel
    simp only [List.length_cons, matchLoop, hc0, specRun]
    rw [hsel]
    cases hj : specSelect (pksList lf pc) usedL c with
    | none => rfl
    | some j =>
      have hjlt : j < pc := by
        have hmem := List.mem_of_find?_eq_some hj
        have hlen2 : (pksList lf pc).length = pc := by simp [pksList]
        rw [hlen2] at hmem
        exact List.mem_range.mp hmem
      exact matchLoop_eq_specRun Cr msg lf msLen pc rest (i + 1)
        (fun k => if k = j then true else usedF k) (usedL.set j true)
        (by simp [hlen])
        (by
          intro k hk
          by_cases hkj : k = j
          · subst hkj
            simp [List.getD_eq_getElem?_getD,
              List.getElem?_set_self (hlen ▸ hjlt : k < usedL.length)]
          · simp only [if_neg hkj]
            rw [List.getD_eq_getElem?_getD, List.getElem?_set_ne (Ne.symm hkj),
              ← List.getD_eq_getElem?_getD]
            exact hrel k hk)
        (by
          intro k hk
          have h := hcands (k + 1) (by simpa using Nat.succ_lt_succ hk)
          rw [(by omega : i + (k + 1) = i + 1 + k)] at h
          simpa using h)

theorem firstNCheck_eq_all (usedF : Nat → Bool) (usedL : List Bool) (pc : Nat)
    (hrel : ∀ k, k < pc → usedF k = usedL.getD k false) :
    ∀ rfn, rfn ≤ pc →
      firstNCheck usedF rfn = (List.range rfn).all (fun i => usedL.getD i false)
  | 0, _ => rfl
  | n + 1, h => by
    rw [List.range_succ, List.all_append]
    simp only [firstNCheck, List.all_cons, List.all_nil, Bool.and_true]
    rw [firstNCheck_eq_all usedF usedL pc hrel n (by omega), hrel n (by omega)]

/-- C1: for every validated call whose `threshold` signatures all survive
parse/recover/serialize (with candidate keys `cands`), the Threshold
Matcher processes the signatures in list order, each candidate claims the
first pubkey index `j` (scanning `0..pubkey_count` ascending) with
`MatchState[j]` false and `pubkeys[j] = candidate`, the call returns
`ERROR_VERIFICATION` when no such index exists, and after all signatures
are matched it accepts iff `MatchState[0..require_first_n)` are all true —
i.e. the call equals the spec-side `specAccept`. -/
theorem c1_threshold_matcher (H : List Nat → List Nat) (Cr : Crypto)
    (M : MolOracle) (env : Env) (s args w : List Nat) (off sz : Nat)
    (h1 : env.scriptLoad = .ok s) (h2 : s.length ≤ MAX_SCRIPT_SIZE)
    (h3 : M.scriptArgs s = some args) (h4 : args.length = BLAKE160_SIZE)
    (h5 : env.witness0Load = .ok w) (h6 : w.length ≤ MAX_WITNESS_SIZE)
    (h7 : M.witnessLockPos w = some (off, sz)) (h8 : FLAGS_SIZE ≤ sz)
    (lf : List Nat) (hlf : lf = (w.drop off).take sz)
    (pc th0 rfn th msLen sigLen : Nat)
    (hpc : pc = lf.getD 3 0) (hth0 : th0 = lf.getD 2 0)
    (hrfn : rfn = lf.getD 1 0) (hth : th = if th0 = 0 then pc else th0)
    (hms : msLen = FLAGS_SIZE + PUBKEY_SIZE * pc)
    (hsig : sigLen = SIGNATURE_SIZE * th)
    (h9 : pc ≠ 0) (h10 : th0 ≤ pc) (h11 : rfn ≤ th)
    (h12 : sz = msLen + sigLen)
    (h13 : args = (H (lf.take msLen)).take BLAKE160_SIZE)
    (txh : List Nat) (h14 : env.txHashLoad = .ok txh)
    (h15 : txh.length ≤ BLAKE2B_BLOCK_SIZE)
    (h16 : ∀ e ∈ env.extraWitnesses, e.length ≤ MAX_WITNESS_SIZE)
    (h17 : env.extraStop = CKB_INDEX_OUT_OF_BOUND) (h18 : env.secpInit = 0)
    (cands : List (List Nat)) (hclen : cands.length = th)
    (hcands : ∀ k, k < th →
      candidateAt Cr
        (H (txh ++ witnessAfterDigest w off msLen sigLen ++
            env.extraWitnesses.flatten)) lf msLen k = .ok (cands.getD k [])) :
    run H Cr M env = specAccept (pksList lf pc) cands pc rfn := by
  have hthpc : th ≤ pc := by
    rw [hth]
    by_cases h0 : th0 = 0
    · simp [h0]
    · simp [h0, h10]
  have hrfnpc : rfn ≤ pc := le_trans h11 hthpc
  rw [run_reaches H Cr M env s args w off sz h1 h2 h3 h4 h5 h6 h7 h8
      lf hlf pc th0 rfn th msLen sigLen hpc hth0 hrfn hth hms hsig h9 h10 h11
      h12 h13,
    digestAndVerify_ok H Cr env w off msLen sigLen lf pc th rfn txh
      h14 h15 h16 h17 h18]
  unfold verifyStage specAccept
  have hloop := matchLoop_eq_specRun Cr
    (H (txh ++ witnessAfterDigest w off msLen sigLen ++ env.extraWitnesses.flatten))
    lf msLen pc cands 0 (fun _ => false) (List.replicate pc false)
    (by simp)
    (by intro k hk; simp [List.getD_eq_getElem?_getD, List.getElem?_replicate, hk])
    (by intro k hk
        have h := hcands k (by omega)
        simpa using h)
  rw [← hclen]
  cases hsr : specRun (pksList lf pc) cands (List.replicate pc false) with
  | none =>
    rw [hsr] at hloop
    rw [hloop]
  | some u =>
    rw [hsr] at hloop
    obtain ⟨f, hf, hulen, hurel⟩ := hloop
    rw [hf]
    show (if firstNCheck f rfn then (0 : Int) else ERROR_VERIFICATION) = _
    rw [firstNCheck_eq_all f u pc hurel rfn hrfnpc]

/-- Witness for C1 at the accepting 1-of-1 input: the call equals the
spec-side matcher outcome (acceptance). -/
theorem c1_threshold_matcher_witness :
    run H0 Cr0 M0 envA =
      specAccept (pksList lockA 1) [List.replicate 33 5] 1 1 :=
  c1_threshold_matcher H0 Cr0 M0 envA [] (List.replicate 20 0) lockA 0 102
    rfl (by decide) rfl (by decide) rfl (by decide) (by decide) (by decide)
    lockA (by decide) 1 1 1 1 37 65 (by decide) (by decide) (by decide)
    (by decide) (by decide) (by decide) (by decide) (by decide) (by decide)
    (by decide) (by decide) (List.replicate 32 7) rfl (by decide)
    (by simp [envA]) rfl rfl [List.replicate 33 5] (by decide) (by decide)

theorem findSlot_some (lf cand : List Nat) (used : Nat → Bool) :
    ∀ (n j k : Nat), findSlot lf cand used j n = some k →
      j ≤ k ∧ k < j + n ∧ used k = false ∧ pkAt lf k = cand := by
  intro n
  induction n with
  | zero => intro j k h; simp [findSlot] at h
  | succ n ih =>
    intro j k h
    simp only [findSlot] at h
    by_cases hu : used j
    · rw [if_pos hu] at h
      obtain ⟨a, b, c, d⟩ := ih (j + 1) k h
      exact ⟨by omega, by omega, c, d⟩
    · rw [if_neg hu] at h
      by_cases hp : pkAt lf j = cand
      · rw [if_pos hp] at h
        cases h
        exact ⟨le_refl _, by omega, by simpa using hu, hp⟩
      · rw [if_neg hp] at h
        obtain ⟨a, b, c, d⟩ := ih (j + 1) k h
        exact ⟨by omega, by omega, c, d⟩

theorem verifyStage_duplicate (Cr : Crypto) (msg lf : List Nat)
    (msLen pc th rfn : Nat) (v : List Nat) (hth : 2 ≤ th)
    (huniq : ∀ j, j < pc → ∀ k, k < pc → pkAt lf j = v → pkAt lf k = v → j = k)
    (hcands : ∀ i, i < th → candidateAt Cr msg lf msLen i = .ok v) :
    verifyStage Cr msg lf msLen pc th rfn = ERROR_VERIFICATION := by
  have hm : th = (th - 2) + 2 := by omega
  have hc0 := hcands 0 (by omega)
  have hc1 := hcands 1 (by omega)
  unfold verifyStage
  rw [hm]
  simp only [matchLoop, hc0]
  cases hf0 : findSlot lf v (fun _ => false) 0 pc with
  | none => rfl
  | some j =>
    obtain ⟨_, hjpc, hjused, hjpk⟩ := findSlot_some lf v (fun _ => false) pc 0 j hf0
    simp only [matchLoop, hc1]
    cases hf1 : findSlot lf v (fun k => if k = j then true else false) 0 pc with
    | none => rfl
    | some k =>
      obtain ⟨_, hkpc, hkused, hkpk⟩ :=
        findSlot_some lf v (fun k => if k = j then true else false) pc 0 k hf1
      have hkj : k = j := huniq k (by omega) j (by omega) hkpk hjpk
      rw [if_pos hkj] at hkused
      cases hkused

/-- C8: for every validated call with `threshold ≥ 2` whose signatures all
recover to the same single policy public key `v` (a key occupying at most
one policy slot), the call rejects with `ERROR_VERIFICATION`: once a public
key's match state is set it is skipped by all later signatures, so each
public key satisfies at most one signature slot. -/
theorem c8_duplicate_signer_rejected (H : List Nat → List Nat) (Cr : Crypto)
    (M : MolOracle) (env : Env) (s args w : List Nat) (off sz : Nat)
    (h1 : env.scriptLoad = .ok s) (h2 : s.length ≤ MAX_SCRIPT_SIZE)
    (h3 : M.scriptArgs s = some args) (h4 : args.length = BLAKE160_SIZE)
    (h5 : env.witness0Load = .ok w) (h6 : w.length ≤ MAX_WITNESS_SIZE)
    (h7 : M.witnessLockPos w = some (off, sz)) (h8 : FLAGS_SIZE ≤ sz)
    (lf : List Nat) (hlf : lf = (w.drop off).take sz)
    (pc th0 rfn th msLen sigLen : Nat)
    (hpc : pc = lf.getD 3 0) (hth0 : th0 = lf.getD 2 0)
    (hrfn : rfn = lf.getD 1 0) (hth : th = if th0 = 0 then pc else th0)
    (hms : msLen = FLAGS_SIZE + PUBKEY_SIZE * pc)
    (hsig : sigLen = SIGNATURE_SIZE * th)
    (h9 : pc ≠ 0) (h10 : th0 ≤ pc) (h11 : rfn ≤ th)
    (h12 : sz = msLen + sigLen)
    (h13 : args = (H (lf.take msLen)).take BLAKE160_SIZE)
    (txh : List Nat) (h14 : env.txHashLoad = .ok txh)
    (h15 : txh.length ≤ BLAKE2B_BLOCK_SIZE)
    (h16 : ∀ e ∈ env.extraWitnesses, e.length ≤ MAX_WITNESS_SIZE)
    (h17 : env.extraStop = CKB_INDEX_OUT_OF_BOUND) (h18 : env.secpInit = 0)
    (v : List Nat) (hth2 : 2 ≤ th)
    (huniq : ∀ j, j < pc → ∀ k, k < pc → pkAt lf j = v → pkAt lf k = v → j = k)
    (hcands : ∀ i, i < th →
      candidateAt Cr
        (H (txh ++ witnessAfterDigest w off msLen sigLen ++
            env.extraWitnesses.flatten)) lf msLen i = .ok v) :
    run H Cr M env = ERROR_VERIFICATION := by
  rw [run_reaches H Cr M env s args w off sz h1 h2 h3 h4 h5 h6 h7 h8
      lf hlf pc th0 rfn th msLen sigLen hpc hth0 hrfn hth hms hsig h9 h10 h11
      h12 h13,
    digestAndVerify_ok H Cr env w off msLen sigLen lf pc th rfn txh
      h14 h15 h16 h17 h18]
  exact verifyStage_duplicate Cr _ lf msLen pc th rfn v hth2 huniq hcands

set_option maxRecDepth 8000 in
/-- Witness for C8: a 2-of-2 policy over two distinct pubkeys where both
signatures recover to the first pubkey is rejected with
`ERROR_VERIFICATION`. -/
theorem c8_duplicate_signer_rejected_witness :
    run H0 Cr0 M0 envD = ERROR_VERIFICATION :=
  c8_duplicate_signer_rejected H0 Cr0 M0 envD [] (List.replicate 20 0) lockD
    0 200 rfl (by decide) rfl (by decide) rfl (by decide) (by decide)
    (by decide) lockD (by decide) 2 2 0 2 70 130 (by decide) (by decide)
    (by decide) (by decide) (by decide) (by decide) (by decide) (by decide)
    (by decide) (by decide) (by decide) (List.replicate 32 7) rfl (by decide)
    (by simp [envD]) rfl rfl (List.replicate 33 5) (by decide) (by decide)
    (by decide)

set_option maxRecDepth 8000 in
/-- C5 (defect exhibit): the validated 1-of-2 call `envB`
(`pubkey_count = 2 > threshold = 1`) reaches the Threshold Matcher — the
call returns `ERROR_VERIFICATION`, not a validation error — and the
matcher's inner scan visits pubkey indices `[0, 1]`, reading
`used_signatures[1]`, while the source allocates `used_signatures` with
only `threshold = 1` entries: the access at index 1 is NOT below the
allocated size, so the out-of-bounds access is reachable. -/
theorem c5_matchstate_scan_exceeds_alloc :
    run H0 Cr0 M0 envB = ERROR_VERIFICATION ∧
    scanVisited lockB (List.replicate 33 8) (fun _ => false) 0 2 = [0, 1] ∧
    ¬ (1 < usedSignaturesAlloc 1) :=
  ⟨by decide, by decide, by decide⟩

theorem zeroRange_take : ∀ (w : List Nat) (s n : Nat),
    (zeroRange w s n).take s = w.take s
  | [], _, _ => by simp [zeroRange]
  | _ :: _, 0, 0 => rfl
  | _ :: _, 0, _ + 1 => by simp [zeroRange]
  | b :: rest, s + 1, n => by
    simp only [zeroRange, List.take_succ_cons]
    rw [zeroRange_take rest s n]

theorem zeroRange_drop : ∀ (w : List Nat) (s n : Nat),
    (zeroRange w s n).drop (s + n) = w.drop (s + n)
  | [], _, _ => by simp [zeroRange]
  | _ :: _, 0, 0 => rfl
  | b :: rest, 0, n + 1 => by
    simp only [zeroRange, Nat.zero_add, List.drop_succ_cons]
    simpa using zeroRange_drop rest 0 n
  | b :: rest, s + 1, n => by
    have harith : s + 1 + n = (s + n) + 1 := by omega
    simp only [zeroRange, harith, List.drop_succ_cons]
    exact zeroRange_drop rest s n

theorem zeroRange_getD_zero :
    ∀ (w : List Nat) (s n k : Nat), s ≤ k → k < s + n → k < w.length →
      (zeroRange w s n).getD k 1 = 0
  | [], _, _, k, _, _, hk3 => by simp at hk3
  | _ :: _, 0, 0, k, _, hk2, _ => by omega
  | _ :: _, 0, _ + 1, 0, _, _, _ => by simp [zeroRange]
  | b :: rest, 0, n + 1, k + 1, _, hk2, hk3 => by
    simp only [zeroRange, List.getD_cons_succ]
    exact zeroRange_getD_zero rest 0 n k (by omega) (by omega) (by simpa using hk3)
  | b :: rest, s + 1, n, k, hk1, hk2, hk3 => by
    obtain ⟨k', rfl⟩ : ∃ k', k = k' + 1 := ⟨k - 1, by omega⟩
    simp only [zeroRange, List.getD_cons_succ]
    exact zeroRange_getD_zero rest s n k' (by omega) (by omega) (by simpa using hk3)

set_option maxRecDepth 8000 in
/-- C6 counterexample: at the accepting 1-of-1 call the digest stage is
reached (the call accepts with status 0), yet the first-witness buffer
after the Digest Builder's zeroing differs from the bytes the host
returned: the zeroing is performed in place through the aliasing lock
pointer, not on a private copy. -/
theorem c6_witness_buffer_mutated_cex :
    run H0 Cr0 M0 envA = 0 ∧ witnessAfterDigest lockA 0 37 65 ≠ lockA :=
  ⟨by decide, by decide⟩

/-- C6 amended: the zeroing mutates the loaded witness buffer in place, but
only its signature area: every byte before `off + msLen` and from
`off + msLen + sigLen` on is unchanged, and every in-buffer byte inside the
area becomes zero — so the lock extraction and fingerprint check, which
consumed the buffer (through the LockBytes copy) before the mutation, saw
the host-returned values. -/
theorem c6_zeroing_in_place_frame (w : List Nat) (off msLen sigLen : Nat) :
    (witnessAfterDigest w off msLen sigLen).take (off + msLen) =
      w.take (off + msLen) ∧
    (witnessAfterDigest w off msLen sigLen).drop (off + msLen + sigLen) =
      w.drop (off + msLen + sigLen) ∧
    (∀ k, off + msLen ≤ k → k < off + msLen + sigLen → k < w.length →
      (witnessAfterDigest w off msLen sigLen).getD k 1 = 0) := by
  refine ⟨zeroRange_take w (off + msLen) sigLen,
    zeroRange_drop w (off + msLen) sigLen, ?_⟩
  intro k hk1 hk2 hk3
  exact zeroRange_getD_zero w (off + msLen) sigLen k hk1 hk2 hk3

/-- Witness for the amended C6 at the accepting 1-of-1 input: the policy
prefix survives the zeroing and byte 37 (the first signature byte) becomes
zero. -/
theorem c6_zeroing_in_place_frame_witness :
    (witnessAfterDigest lockA 0 37 65).take 37 = lockA.take 37 ∧
    (witnessAfterDigest lockA 0 37 65).getD 37 1 = 0 :=
  ⟨(c6_zeroing_in_place_frame lockA 0 37 65).1,
   (c6_zeroing_in_place_frame lockA 0 37 65).2.2 37 (by decide) (by decide)
     (by decide)⟩

/-- C7: an oversize blob from the host is rejected with `ERROR_SYSCALL`
before any parsing of that blob: a script blob over 32 KiB rejects the call
whatever all other oracles are, and — once the script stage passed — a
first-witness blob over 32 KiB rejects the call for every lock-extraction
oracle. -/
theorem c7_oversize_rejected (H : List Nat → List Nat) (Cr : Crypto)
    (M : MolOracle) (env : Env) :
    (∀ s, env.scriptLoad = .ok s → MAX_SCRIPT_SIZE < s.length →
      run H Cr M env = ERROR_SYSCALL) ∧
    (∀ s args wv, env.scriptLoad = .ok s → s.length ≤ MAX_SCRIPT_SIZE →
      M.scriptArgs s = some args → args.length = BLAKE160_SIZE →
      env.witness0Load = .ok wv → MAX_WITNESS_SIZE < wv.length →
      ∀ lockOracle : List Nat → Option (Nat × Nat),
        run H Cr { scriptArgs := M.scriptArgs, witnessLockPos := lockOracle }
          env = ERROR_SYSCALL) := by
  constructor
  · intro s h1 h2
    simp only [run, hostLoad, h1, if_pos h2]
  · intro s args wv h1 h2 h3 h4 h5 h6 lockOracle
    simp only [run, hostLoad, h1, if_neg (Nat.not_lt.mpr h2), h3,
      if_neg (not_not_intro h4), h5, if_pos h6]

/-- Witness for C7: a call whose script blob has 32769 bytes returns
`ERROR_SYSCALL`. -/
theorem c7_oversize_rejected_witness :
    run H0 Cr0 M0
      { scriptLoad := .ok (List.replicate (MAX_SCRIPT_SIZE + 1) 0),
        witness0Load := .ok lockA,
        txHashLoad := .ok (List.replicate 32 7),
        extraWitnesses := [], extraStop := CKB_INDEX_OUT_OF_BOUND,
        secpInit := 0 } = ERROR_SYSCALL :=
  (c7_oversize_rejected H0 Cr0 M0 _).1 (List.replicate (MAX_SCRIPT_SIZE + 1) 0)
    rfl (by simp)

/-- C9: the whole verification call is a pure function of its inputs — two
runs with pointwise-identical host accessor values and pointwise-identical
cryptographic primitive results return the identical status code. -/
theorem c9_run_deterministic (H1 H2 : List Nat → List Nat) (Cr1 Cr2 : Crypto)
    (M1 M2 : MolOracle) (env1 env2 : Env)
    (hH : ∀ x, H1 x = H2 x)
    (hp : ∀ b r, Cr1.parseSig b r = Cr2.parseSig b r)
    (hr : ∀ s2 m, Cr1.recover s2 m = Cr2.recover s2 m)
    (hs : ∀ p, Cr1.serializePk p = Cr2.serializePk p)
    (ha : ∀ x, M1.scriptArgs x = M2.scriptArgs x)
    (hw : ∀ x, M1.witnessLockPos x = M2.witnessLockPos x)
    (he : env1 = env2) :
    run H1 Cr1 M1 env1 = run H2 Cr2 M2 env2 := by
  have hH' : H1 = H2 := funext hH
  have hcr : Cr1 = Cr2 := by
    cases Cr1
    cases Cr2
    simp only [Crypto.mk.injEq]
    refine ⟨funext fun b => funext (hp b), funext fun s2 => funext (hr s2),
      funext hs⟩
  have hm : M1 = M2 := by
    cases M1
    cases M2
    simp only [MolOracle.mk.injEq]
    exact ⟨funext ha, funext hw⟩
  rw [hH', hcr, hm, he]

/-- Witness for C9: re-running the accepting 1-of-1 call with the identical
oracles yields the identical status. -/
theorem c9_run_deterministic_witness :
    run H0 Cr0 M0 envA = run H0 Cr0 M0 envA :=
  c9_run_deterministic H0 H0 Cr0 Cr0 M0 M0 envA envA (fun _ => rfl)
    (fun _ _ => rfl) (fun _ _ => rfl) (fun _ => rfl) (fun _ => rfl)
    (fun _ => rfl) rfl

/-- C10: for every validated call the Threshold Matcher consumes the
LockBytes copy taken before the Digest Builder runs: the call equals the
matcher applied to the slice `(w.drop off).take sz` of the host-returned
witness, whose `i`-th 65-byte signature slice is the originally extracted
one, even though the buffer hashed into the digest has its signature region
`[off+msLen, off+msLen+sigLen)` zeroed in place. -/
theorem c10_signatures_from_original_copy (H : List Nat → List Nat)
    (Cr : Crypto) (M : MolOracle) (env : Env) (s args w : List Nat)
    (off sz : Nat)
    (h1 : env.scriptLoad = .ok s) (h2 : s.length ≤ MAX_SCRIPT_SIZE)
    (h3 : M.scriptArgs s = some args) (h4 : args.length = BLAKE160_SIZE)
    (h5 : env.witness0Load = .ok w) (h6 : w.length ≤ MAX_WITNESS_SIZE)
    (h7 : M.witnessLockPos w = some (off, sz)) (h8 : FLAGS_SIZE ≤ sz)
    (lf : List Nat) (hlf : lf = (w.drop off).take sz)
    (pc th0 rfn th msLen sigLen : Nat)
    (hpc : pc = lf.getD 3 0) (hth0 : th0 = lf.getD 2 0)
    (hrfn : rfn = lf.getD 1 0) (hth : th = if th0 = 0 then pc else th0)
    (hms : msLen = FLAGS_SIZE + PUBKEY_SIZE * pc)
    (hsig : sigLen = SIGNATURE_SIZE * th)
    (h9 : pc ≠ 0) (h10 : th0 ≤ pc) (h11 : rfn ≤ th)
    (h12 : sz = msLen + sigLen)
    (h13 : args = (H (lf.take msLen)).take BLAKE160_SIZE)
    (txh : List Nat) (h14 : env.txHashLoad = .ok txh)
    (h15 : txh.length ≤ BLAKE2B_BLOCK_SIZE)
    (h16 : ∀ e ∈ env.extraWitnesses, e.length ≤ MAX_WITNESS_SIZE)
    (h17 : env.extraStop = CKB_INDEX_OUT_OF_BOUND) (h18 : env.secpInit = 0) :
    run H Cr M env =
      verifyStage Cr
        (H (txh ++ witnessAfterDigest w off msLen sigLen ++
            env.extraWitnesses.flatten)) ((w.drop off).take sz) msLen pc th rfn ∧
    (∀ k, off + msLen ≤ k → k < off + msLen + sigLen → k < w.length →
      (witnessAfterDigest w off msLen sigLen).getD k 1 = 0) ∧
    (∀ i, i < th → sigBytesAt lf msLen i =
      ((((w.drop off).take sz).drop (msLen + i * SIGNATURE_SIZE)).take
        RECID_INDEX)) := by
  refine ⟨?_, ?_, ?_⟩
  · rw [run_reaches H Cr M env s args w off sz h1 h2 h3 h4 h5 h6 h7 h8
        lf hlf pc th0 rfn th msLen sigLen hpc hth0 hrfn hth hms hsig h9 h10
        h11 h12 h13,
      digestAndVerify_ok H Cr env w off msLen sigLen lf pc th rfn txh
        h14 h15 h16 h17 h18, hlf]
  · intro k hk1 hk2 hk3
    exact zeroRange_getD_zero w (off + msLen) sigLen k hk1 hk2 hk3
  · intro i _
    rw [hlf, sigBytesAt]

set_option maxRecDepth 8000 in
/-- Witness for C10 at the accepting 1-of-1 input: the matcher runs on the
pre-zeroing slice of the host-returned witness, byte 37 of the hashed
buffer is zeroed, and signature 0's slice is the original one. -/
theorem c10_signatures_from_original_copy_witness :
    run H0 Cr0 M0 envA =
      verifyStage Cr0
        (H0 (List.replicate 32 7 ++ witnessAfterDigest lockA 0 37 65 ++
            envA.extraWitnesses.flatten)) ((lockA.drop 0).take 102) 37 1 1 1 ∧
    (witnessAfterDigest lockA 0 37 65).getD 37 1 = 0 ∧
    sigBytesAt lockA 37 0 = (((lockA.drop 0).take 102).drop 37).take 64 := by
  have h := c10_signatures_from_original_copy H0 Cr0 M0 envA []
    (List.replicate 20 0) lockA 0 102 rfl (by decide) rfl (by decide) rfl
    (by decide) (by decide) (by decide) lockA (by decide) 1 1 1 1 37 65
    (by decide) (by decide) (by decide) (by decide) (by decide) (by decide)
    (by decide) (by decide) (by decide) (by decide) (by decide)
    (List.replicate 32 7) rfl (by decide) (by simp [envA]) rfl rfl
  exact ⟨h.1, h.2.1 37 (by decide) (by decide) (by decide),
    by simpa using h.2.2 0 (by decide)⟩
